import Mathlib

/-!
Verification of the move-smart-contract-tx-builder TypeScript SDK.

The development shallowly embeds the repository's variant codec
(`src/aptos_types/index.ts`) and ABI-driven builder
(`src/transaction_builder/builders.ts`, plus the second copy of that file
shipped as `src/unnamed/part_000`).  Byte buffers are `List Nat` with each
entry a byte value; machine integers are `Nat` with explicit bounds; fallible
operations return `Except`.

The primitive byte codec (`src/bcs`), the hex/address utilities
(`src/hex_string.ts`, `src/aptos_types/account_address.ts`), the type-tag
grammar (`src/transaction_builder/builder_utils.ts`) and the ABI document
types (`src/aptos_types/abi.ts`) are not part of the given sources; they are
modelled from the specification's boundary description and marked
`Modelled from the spec:` below.
-/

namespace TxSdk

/-! ## Primitive codec (byte-oriented read/write API)

Modelled from the spec: the underlying fixed-width integer and ULEB128
primitive encoder/decoder of `src/bcs` is an external collaborator; the spec
fixes its boundary: ULEB128 variant indices and lengths, little-endian
fixed-width integers of widths 8/16/32/64/128/256 bits, length-prefixed byte
strings and UTF-8 strings, booleans, with truncated input failing with
`UnexpectedEndOfInput`. -/

/-- Decode-time errors of the variant codec (`UnexpectedEndOfInput`,
`Unknown variant index for <type>: <index>`, overflowing ULEB128 u32 reads,
invalid boolean bytes). -/
inductive DesErr where
  | endOfInput : DesErr
  | ulebOverflow : DesErr
  | unknownVariant (ty : String) (idx : Nat) : DesErr
  | invalidBool (b : Nat) : DesErr
  deriving DecidableEq, Repr

/-- A deserializer: consumes a prefix of the byte list, returning the decoded
value and the unconsumed tail, or a decode error. -/
def Des (α : Type) : Type := List Nat → Except DesErr (α × List Nat)

/-- Modelled from the spec: fuel-driven worker for the ULEB128 encoder of the
primitive codec (`serializeU32AsUleb128`).  Fuel `n` always suffices for
value `n` because the value shrinks by a factor 128 each step. -/
def ulebEncodeF : Nat → Nat → List Nat
  | 0, n => [n]
  | fuel + 1, n => if n < 128 then [n] else (n % 128 + 128) :: ulebEncodeF fuel (n / 128)

/-- Modelled from the spec: ULEB128 encoding of an unsigned integer. -/
def ulebEncode (n : Nat) : List Nat :=
  ulebEncodeF n n

/-- Modelled from the spec: core ULEB128 decoder, returning the decoded value
and the unconsumed bytes. -/
def ulebDecodeCore : List Nat → Option (Nat × List Nat)
  | [] => none
  | b :: rest =>
    if b < 128 then some (b, rest)
    else
      match ulebDecodeCore rest with
      | none => none
      | some (m, r) => some (b % 128 + 128 * m, r)

/-- Modelled from the spec: `deserializeUleb128AsU32` — reads a ULEB128 value
and fails when the input is truncated or the value exceeds the u32 range. -/
def readUleb32 : Des Nat := fun bytes =>
  match ulebDecodeCore bytes with
  | none => .error .endOfInput
  | some (n, rest) => if n < 4294967296 then .ok (n, rest) else .error .ulebOverflow

/-- Modelled from the spec: little-endian fixed-width encoding of `n` on
`w` bytes (`writeU8/16/32/64/128/256`). -/
def leBytes : Nat → Nat → List Nat
  | 0, _ => []
  | w + 1, n => n % 256 :: leBytes w (n / 256)

/-- Modelled from the spec: little-endian fixed-width reader on `w` bytes. -/
def leReadE : Nat → Des Nat
  | 0 => fun b => .ok (0, b)
  | w + 1 => fun b =>
    match b with
    | [] => .error .endOfInput
    | x :: r =>
      match leReadE w r with
      | .ok (m, r2) => .ok (x + 256 * m, r2)
      | .error e => .error e

/-- Modelled from the spec: read exactly `n` raw bytes. -/
def readN : Nat → Des (List Nat)
  | 0 => fun b => .ok ([], b)
  | n + 1 => fun b =>
    match b with
    | [] => .error .endOfInput
    | x :: r =>
      match readN n r with
      | .ok (xs, r2) => .ok (x :: xs, r2)
      | .error e => .error e

/-- Modelled from the spec: `serializeBytes` — ULEB128 length prefix followed
by the raw bytes. -/
def serializeBytes (b : List Nat) : List Nat :=
  ulebEncode b.length ++ b

/-- Modelled from the spec: `deserializeBytes`. -/
def readBytes : Des (List Nat) := fun b =>
  match readUleb32 b with
  | .ok (n, r) => readN n r
  | .error e => .error e

/-- Modelled from the spec: `serializeStr` — strings cross the boundary as
their length-prefixed byte encoding; characters are mapped to their code
points (the UTF-8 leaf is external and assumed correct, so the model fixes a
one-byte-per-character encoding and well-formedness restricts identifiers to
single-byte characters). -/
def serializeStr (s : String) : List Nat :=
  serializeBytes (s.data.map Char.toNat)

/-- Modelled from the spec: `deserializeStr`. -/
def readStr : Des String := fun b =>
  match readBytes b with
  | .ok (bs, r) => .ok (⟨bs.map Char.ofNat⟩, r)
  | .error e => .error e

/-- Modelled from the spec: `serializeBool`. -/
def serializeBool (b : Bool) : List Nat :=
  [if b then 1 else 0]

/-- Modelled from the spec: `deserializeBool` — accepts exactly the bytes
`0` and `1`. -/
def readBool : Des Bool := fun b =>
  match b with
  | [] => .error .endOfInput
  | 0 :: r => .ok (false, r)
  | 1 :: r => .ok (true, r)
  | x :: _ => .error (.invalidBool x)

/-- Lift a field decoder into a variant loader that wraps the decoded value
with constructor `C` (the shape of every `<Variant>.load` in the source). -/
def liftLoad {β α : Type} (C : β → α) (d : Des β) : Des α := fun b =>
  match d b with
  | .ok (v, r) => .ok (C v, r)
  | .error e => .error e

/-- Read a ULEB128 count then that many elements (`deserializeVector`). -/
def readListD {α : Type} (d : Des α) : Nat → Des (List α)
  | 0 => fun b => .ok ([], b)
  | n + 1 => fun b =>
    match d b with
    | .ok (x, r) =>
      match readListD d n r with
      | .ok (xs, r2) => .ok (x :: xs, r2)
      | .error e => .error e
    | .error e => .error e

/-- `deserializeVector`: ULEB128 count followed by the elements. -/
def readVec {α : Type} (d : Des α) : Des (List α) := fun b =>
  match readUleb32 b with
  | .ok (n, r) => readListD d n r
  | .error e => .error e

theorem ulebDecodeCore_encodeF (fuel n : Nat) (hn : n ≤ fuel) (rest : List Nat) :
    ulebDecodeCore (ulebEncodeF fuel n ++ rest) = some (n, rest) := by
  induction fuel generalizing n with
  | zero =>
    interval_cases n
    simp [ulebEncodeF, ulebDecodeCore]
  | succ f ih =>
    by_cases h : n < 128
    · simp [ulebEncodeF, h, ulebDecodeCore]
    · have hrec : n / 128 ≤ f := by
        have h1 : n / 128 < n := Nat.div_lt_self (by omega) (by omega)
        omega
      simp only [ulebEncodeF, if_neg h, List.cons_append, ulebDecodeCore]
      have : ¬ (n % 128 + 128 < 128) := by omega
      simp only [if_neg this, ih (n / 128) hrec]
      have hm : (n % 128 + 128) % 128 = n % 128 := by omega
      rw [hm]
      have hsum : n % 128 + 128 * (n / 128) = n := Nat.mod_add_div n 128
      rw [hsum]

theorem readUleb32_encode (n : Nat) (hn : n < 4294967296) (rest : List Nat) :
    readUleb32 (ulebEncode n ++ rest) = .ok (n, rest) := by
  simp [readUleb32, ulebEncode, ulebDecodeCore_encodeF n n (Nat.le_refl n) rest, hn]

theorem leReadE_leBytes (w n : Nat) (hn : n < 256 ^ w) (rest : List Nat) :
    leReadE w (leBytes w n ++ rest) = .ok (n, rest) := by
  induction w generalizing n with
  | zero =>
    simp only [Nat.pow_zero, Nat.lt_one_iff] at hn
    simp [leBytes, leReadE, hn]
  | succ w ih =>
    have hdiv : n / 256 < 256 ^ w := by
      rw [Nat.div_lt_iff_lt_mul (by omega)]
      calc n < 256 ^ (w + 1) := hn
        _ = 256 ^ w * 256 := by ring
    simp only [leBytes, List.cons_append, leReadE, ih (n / 256) hdiv]
    have hsum : n % 256 + 256 * (n / 256) = n := Nat.mod_add_div n 256
    rw [hsum]

/-! ## Address and hex utilities

Modelled from the spec: `src/hex_string.ts` and
`src/aptos_types/account_address.ts` are external collaborators ("parse a hex
string into a fixed-width address value and back"); addresses are fixed-width
32-byte values. -/

/-- An account address: the fixed-width 32-byte value
(`AccountAddress.address` in the source). -/
structure AccountAddress where
  address : List Nat
  deriving DecidableEq, Repr

/-- Modelled from the spec: numeric value of one hex digit character
(non-digits map to 0; valid hex input never hits that case). -/
def hexDigitVal (c : Char) : Nat :=
  if '0' ≤ c ∧ c ≤ '9' then c.toNat - 48
  else if 'a' ≤ c ∧ c ≤ 'f' then c.toNat - 87
  else if 'A' ≤ c ∧ c ≤ 'F' then c.toNat - 55
  else 0

/-- Modelled from the spec: drop an optional leading `0x`/`0X` marker. -/
def dropHexMarker (s : String) : List Char :=
  match s.data with
  | '0' :: 'x' :: r => r
  | '0' :: 'X' :: r => r
  | l => l

/-- The 32-byte big-endian representation of `n` (addresses are left-padded
with zero bytes to the fixed width). -/
def addrBytes (n : Nat) : List Nat :=
  (leBytes 32 n).reverse

/-- Modelled from the spec: `AccountAddress.fromHex` — parse a hex string
(with or without `0x`) into the fixed-width 32-byte address value. -/
def AccountAddress.fromHex (s : String) : AccountAddress :=
  ⟨addrBytes ((dropHexMarker s).foldl (fun acc c => 16 * acc + hexDigitVal c) 0)⟩

/-- `AccountAddress.serialize`: the fixed 32 address bytes, no length
prefix (`serializeFixedBytes`). -/
def AccountAddress.serialize (a : AccountAddress) : List Nat :=
  a.address

/-- `AccountAddress.deserialize`: read the fixed 32 address bytes. -/
def AccountAddress.deserialize : Des AccountAddress :=
  liftLoad AccountAddress.mk (readN 32)

/-- Hex character of a nibble value. -/
def nibbleChar (n : Nat) : Char :=
  if n < 10 then Char.ofNat (48 + n) else Char.ofNat (87 + n)

/-- The two hex characters of a byte. -/
def byteHexChars (b : Nat) : List Char :=
  [nibbleChar (b / 16 % 16), nibbleChar (b % 16)]

/-- Modelled from the spec: `HexString.fromUint8Array(..).toShortString()` —
`0x` followed by the hex digits of the bytes with leading zeros stripped. -/
def toShortString (bytes : List Nat) : String :=
  ⟨'0' :: 'x' :: (bytes.flatMap byteHexChars).dropWhile (· = '0')⟩

/-! ## Type tags

Modelled from the spec: `src/aptos_types/type_tag.ts` is not among the given
sources.  The spec fixes the data model (eight fixed-width unsigned integer
kinds, boolean, address, signer, vector-of, struct-tag with address, module
name, struct name and generic arguments) and the binary form (one ULEB128
variant index per alternative, the struct alternative encoding
address + module + name + generic-args-as-length-prefixed-vector). -/

/-- `Identifier` (`src/aptos_types/identifier.ts` boundary): a wrapped
string, serialized length-prefixed. -/
structure Identifier where
  value : String
  deriving DecidableEq, Repr

/-- `Identifier.serialize`. -/
def Identifier.serialize (i : Identifier) : List Nat :=
  serializeStr i.value

/-- `Identifier.deserialize`. -/
def Identifier.deserialize : Des Identifier :=
  liftLoad Identifier.mk readStr

/-- Modelled from the spec: the TypeTag data model (recursive, immutable). -/
inductive TypeTag where
  | bool : TypeTag
  | u8 : TypeTag
  | u16 : TypeTag
  | u32 : TypeTag
  | u64 : TypeTag
  | u128 : TypeTag
  | u256 : TypeTag
  | address : TypeTag
  | signer : TypeTag
  | vector (value : TypeTag) : TypeTag
  | struct (addr : AccountAddress) (module_name : Identifier) (name : Identifier)
      (type_args : List TypeTag) : TypeTag

mutual

/-- Modelled from the spec: TypeTag binary encoder; the ULEB128 variant index
assignment follows the wire protocol (bool 0, u8 1, u64 2, u128 3, address 4,
signer 5, vector 6, struct 7, u16 8, u32 9, u256 10). -/
def TypeTag.serialize : TypeTag → List Nat
  | .bool => ulebEncode 0
  | .u8 => ulebEncode 1
  | .u64 => ulebEncode 2
  | .u128 => ulebEncode 3
  | .address => ulebEncode 4
  | .signer => ulebEncode 5
  | .vector t => ulebEncode 6 ++ TypeTag.serialize t
  | .struct a m n ts =>
    ulebEncode 7 ++ a.serialize ++ m.serialize ++ n.serialize ++
      ulebEncode ts.length ++ TypeTag.serializeList ts
  | .u16 => ulebEncode 8
  | .u32 => ulebEncode 9
  | .u256 => ulebEncode 10

/-- Modelled from the spec: encoder of a generic-argument list (elements in
order, count prefix written by the caller). -/
def TypeTag.serializeList : List TypeTag → List Nat
  | [] => []
  | t :: ts => TypeTag.serialize t ++ TypeTag.serializeList ts

end

mutual

/-- Modelled from the spec: fuel-driven TypeTag decoder (ULEB128 variant
index, strict allow-list dispatch).  A fuel of the byte-list length plus one
always suffices because every nesting level consumes at least one byte. -/
def TypeTag.deserializeF : Nat → Des TypeTag
  | 0 => fun _ => .error .endOfInput
  | fuel + 1 => fun b =>
    match readUleb32 b with
    | .error e => .error e
    | .ok (idx, rest) =>
      match idx with
      | 0 => .ok (.bool, rest)
      | 1 => .ok (.u8, rest)
      | 2 => .ok (.u64, rest)
      | 3 => .ok (.u128, rest)
      | 4 => .ok (.address, rest)
      | 5 => .ok (.signer, rest)
      | 6 =>
        match TypeTag.deserializeF fuel rest with
        | .ok (t, r) => .ok (.vector t, r)
        | .error e => .error e
      | 7 =>
        match AccountAddress.deserialize rest with
        | .error e => .error e
        | .ok (a, r1) =>
          match Identifier.deserialize r1 with
          | .error e => .error e
          | .ok (m, r2) =>
            match Identifier.deserialize r2 with
            | .error e => .error e
            | .ok (n, r3) =>
              match readUleb32 r3 with
              | .error e => .error e
              | .ok (cnt, r4) =>
                match TypeTag.deserializeListF fuel cnt r4 with
                | .ok (ts, r5) => .ok (.struct a m n ts, r5)
                | .error e => .error e
      | 8 => .ok (.u16, rest)
      | 9 => .ok (.u32, rest)
      | 10 => .ok (.u256, rest)
      | i => .error (.unknownVariant "TypeTag" i)

/-- Modelled from the spec: decoder of `cnt` generic arguments. -/
def TypeTag.deserializeListF : Nat → Nat → Des (List TypeTag)
  | 0, _ => fun _ => .error .endOfInput
  | _ + 1, 0 => fun b => .ok ([], b)
  | fuel + 1, cnt + 1 => fun b =>
    match TypeTag.deserializeF fuel b with
    | .ok (t, r) =>
      match TypeTag.deserializeListF fuel cnt r with
      | .ok (ts, r2) => .ok (t :: ts, r2)
      | .error e => .error e
    | .error e => .error e

end

/-! ## Variant codec (`src/aptos_types/index.ts`) -/

/-- `Script`: Move bytecode payload. -/
structure Script where
  code : List Nat
  deriving DecidableEq, Repr

/-- `Script.serialize`: length-prefixed bytecode. -/
def Script.serialize (s : Script) : List Nat :=
  serializeBytes s.code

/-- `Script.deserialize`. -/
def Script.deserialize : Des Script :=
  liftLoad Script.mk readBytes

/-- `EntryFunction`: target of a module-function call. -/
structure EntryFunction where
  module_address : AccountAddress
  module_name : Identifier
  function_name : Identifier
  deriving DecidableEq, Repr

/-- `EntryFunction.serialize`: address, module name, function name. -/
def EntryFunction.serialize (e : EntryFunction) : List Nat :=
  e.module_address.serialize ++ e.module_name.serialize ++ e.function_name.serialize

/-- `EntryFunction.deserialize`. -/
def EntryFunction.deserialize : Des EntryFunction := fun b =>
  match AccountAddress.deserialize b with
  | .error e => .error e
  | .ok (a, r1) =>
    match Identifier.deserialize r1 with
    | .error e => .error e
    | .ok (m, r2) =>
      match Identifier.deserialize r2 with
      | .error e => .error e
      | .ok (f, r3) => .ok (⟨a, m, f⟩, r3)

/-- `ModuleId`: full name of a module. -/
structure ModuleId where
  address : AccountAddress
  name : Identifier
  deriving DecidableEq, Repr

/-- `Call` (tagged union, 2 variants): `CallScript` (index 0) or
`CallEntryFunction` (index 1). -/
inductive Call where
  | script (value : Script) : Call
  | entryFunction (value : EntryFunction) : Call
  deriving DecidableEq, Repr

/-- The ULEB128 variant index written by `Call.serialize`. -/
def Call.tag : Call → Nat
  | .script _ => 0
  | .entryFunction _ => 1

/-- `CallScript.serialize` / `CallEntryFunction.serialize` merged over the
sum: variant index then the variant's fields. -/
def Call.serialize : Call → List Nat
  | .script s => ulebEncode 0 ++ s.serialize
  | .entryFunction e => ulebEncode 1 ++ e.serialize

/-- `CallScript.load`. -/
def CallScript.load : Des Call :=
  liftLoad Call.script Script.deserialize

/-- `CallEntryFunction.load`. -/
def CallEntryFunction.load : Des Call :=
  liftLoad Call.entryFunction EntryFunction.deserialize

/-- `Call.deserialize`: ULEB128 variant index, strict allow-list `{0, 1}`. -/
def Call.deserialize : Des Call := fun b =>
  match readUleb32 b with
  | .error e => .error e
  | .ok (idx, rest) =>
    match idx with
    | 0 => CallScript.load rest
    | 1 => CallEntryFunction.load rest
    | i => .error (.unknownVariant "Call" i)

/-- `Signer` (tagged union, 3 variants): `Root` 0, `Placeholder` 1,
`Name` 2. -/
inductive Signer where
  | root : Signer
  | placeholder : Signer
  | name (value : String) : Signer
  deriving DecidableEq, Repr

/-- The ULEB128 variant index written by `Signer.serialize`. -/
def Signer.tag : Signer → Nat
  | .root => 0
  | .placeholder => 1
  | .name _ => 2

/-- `SignerRoot.serialize` / `SignerPlaceholder.serialize` /
`SignerName.serialize` merged over the sum. -/
def Signer.serialize : Signer → List Nat
  | .root => ulebEncode 0
  | .placeholder => ulebEncode 1
  | .name s => ulebEncode 2 ++ serializeStr s

/-- `SignerRoot.load`. -/
def SignerRoot.load : Des Signer := fun b => .ok (.root, b)

/-- `SignerPlaceholder.load`. -/
def SignerPlaceholder.load : Des Signer := fun b => .ok (.placeholder, b)

/-- `SignerName.load`. -/
def SignerName.load : Des Signer :=
  liftLoad Signer.name readStr

/-- `Signer.deserialize`: ULEB128 variant index, strict allow-list
`{0, 1, 2}`. -/
def Signer.deserialize : Des Signer := fun b =>
  match readUleb32 b with
  | .error e => .error e
  | .ok (idx, rest) =>
    match idx with
    | 0 => SignerRoot.load rest
    | 1 => SignerPlaceholder.load rest
    | 2 => SignerName.load rest
    | i => .error (.unknownVariant "Signer" i)

/-- `TransactionArgument` (tagged union, 9 variants): U8 0, U64 1, U128 2,
Address 3, U8Vector 4, Bool 5, U16 6, U32 7, U256 8. -/
inductive TransactionArgument where
  | u8 (value : Nat) : TransactionArgument
  | u64 (value : Nat) : TransactionArgument
  | u128 (value : Nat) : TransactionArgument
  | address (value : AccountAddress) : TransactionArgument
  | u8vector (value : List Nat) : TransactionArgument
  | bool (value : Bool) : TransactionArgument
  | u16 (value : Nat) : TransactionArgument
  | u32 (value : Nat) : TransactionArgument
  | u256 (value : Nat) : TransactionArgument
  deriving DecidableEq, Repr

/-- The ULEB128 variant index written by `TransactionArgument.serialize`. -/
def TransactionArgument.tag : TransactionArgument → Nat
  | .u8 _ => 0
  | .u64 _ => 1
  | .u128 _ => 2
  | .address _ => 3
  | .u8vector _ => 4
  | .bool _ => 5
  | .u16 _ => 6
  | .u32 _ => 7
  | .u256 _ => 8

/-- The per-variant `serialize` methods merged over the sum: variant index
then the fixed-width little-endian value (or address bytes, length-prefixed
bytes, boolean byte). -/
def TransactionArgument.serialize : TransactionArgument → List Nat
  | .u8 v => ulebEncode 0 ++ leBytes 1 v
  | .u64 v => ulebEncode 1 ++ leBytes 8 v
  | .u128 v => ulebEncode 2 ++ leBytes 16 v
  | .address a => ulebEncode 3 ++ a.serialize
  | .u8vector b => ulebEncode 4 ++ serializeBytes b
  | .bool v => ulebEncode 5 ++ serializeBool v
  | .u16 v => ulebEncode 6 ++ leBytes 2 v
  | .u32 v => ulebEncode 7 ++ leBytes 4 v
  | .u256 v => ulebEncode 8 ++ leBytes 32 v

/-- `TransactionArgumentU8.load`. -/
def TransactionArgumentU8.load : Des TransactionArgument :=
  liftLoad TransactionArgument.u8 (leReadE 1)

/-- `TransactionArgumentU64.load`. -/
def TransactionArgumentU64.load : Des TransactionArgument :=
  liftLoad TransactionArgument.u64 (leReadE 8)

/-- `TransactionArgumentU128.load`. -/
def TransactionArgumentU128.load : Des TransactionArgument :=
  liftLoad TransactionArgument.u128 (leReadE 16)

/-- `TransactionArgumentAddress.load`. -/
def TransactionArgumentAddress.load : Des TransactionArgument :=
  liftLoad TransactionArgument.address AccountAddress.deserialize

/-- `TransactionArgumentU8Vector.load`. -/
def TransactionArgumentU8Vector.load : Des TransactionArgument :=
  liftLoad TransactionArgument.u8vector readBytes

/-- `TransactionArgumentBool.load`. -/
def TransactionArgumentBool.load : Des TransactionArgument :=
  liftLoad TransactionArgument.bool readBool

/-- `TransactionArgumentU16.load`. -/
def TransactionArgumentU16.load : Des TransactionArgument :=
  liftLoad TransactionArgument.u16 (leReadE 2)

/-- `TransactionArgumentU32.load`. -/
def TransactionArgumentU32.load : Des TransactionArgument :=
  liftLoad TransactionArgument.u32 (leReadE 4)

/-- `TransactionArgumentU256.load`. -/
def TransactionArgumentU256.load : Des TransactionArgument :=
  liftLoad TransactionArgument.u256 (leReadE 32)

/-- `TransactionArgument.deserialize`: ULEB128 variant index, strict
allow-list `{0, ..., 8}`. -/
def TransactionArgument.deserialize : Des TransactionArgument := fun b =>
  match readUleb32 b with
  | .error e => .error e
  | .ok (idx, rest) =>
    match idx with
    | 0 => TransactionArgumentU8.load rest
    | 1 => TransactionArgumentU64.load rest
    | 2 => TransactionArgumentU128.load rest
    | 3 => TransactionArgumentAddress.load rest
    | 4 => TransactionArgumentU8Vector.load rest
    | 5 => TransactionArgumentBool.load rest
    | 6 => TransactionArgumentU16.load rest
    | 7 => TransactionArgumentU32.load rest
    | 8 => TransactionArgumentU256.load rest
    | i => .error (.unknownVariant "TransactionArgument" i)

/-- `TxV1`: the call-payload body — signers, call, raw-byte-encoded
arguments, type arguments. -/
structure TxV1 where
  signers : List Signer
  call : Call
  args : List (List Nat)
  type_args : List TypeTag

/-- `TxV1.serialize`: signer vector, call, length-prefixed raw argument
list, type-argument vector. -/
def TxV1.serialize (tx : TxV1) : List Nat :=
  ulebEncode tx.signers.length ++ tx.signers.flatMap Signer.serialize ++
    tx.call.serialize ++
    ulebEncode tx.args.length ++ tx.args.flatMap serializeBytes ++
    ulebEncode tx.type_args.length ++ (tx.type_args.flatMap TypeTag.serialize)

/-- The result shape of `TxV1.deserialize` in the source: its signer list is
produced by `deserializeVector(deserializer, TransactionArgument)` (not
`Signer`), so the decoded elements are `TransactionArgument`s. -/
structure TxV1Raw where
  signers : List TransactionArgument
  call : Call
  args : List (List Nat)
  type_args : List TypeTag

/-- `TxV1.deserialize`, exactly as in the source: the signer sequence is read
with `TransactionArgument.deserialize`. -/
def TxV1.deserialize : Des TxV1Raw := fun b =>
  match readVec TransactionArgument.deserialize b with
  | .error e => .error e
  | .ok (signers, r1) =>
    match Call.deserialize r1 with
    | .error e => .error e
    | .ok (call, r2) =>
      match readUleb32 r2 with
      | .error e => .error e
      | .ok (n, r3) =>
        match readListD readBytes n r3 with
        | .error e => .error e
        | .ok (args, r4) =>
          match readVec (TypeTag.deserializeF (r4.length + 1)) r4 with
          | .error e => .error e
          | .ok (tas, r5) => .ok (⟨signers, call, args, tas⟩, r5)

/-- `Transaction` (tagged union, 1 variant): `V1` at index 0. -/
inductive Transaction where
  | v1 (value : TxV1) : Transaction

/-- The ULEB128 variant index written by `Transaction.serialize`. -/
def Transaction.tag : Transaction → Nat
  | .v1 _ => 0

/-- `TransactionV1.serialize` over the sum. -/
def Transaction.serialize : Transaction → List Nat
  | .v1 t => ulebEncode 0 ++ t.serialize

/-- The result shape of `Transaction.deserialize` (it wraps the raw
`TxV1.deserialize` result). -/
inductive TransactionRaw where
  | v1 (value : TxV1Raw) : TransactionRaw

/-- The variant index of a decoded `Transaction`. -/
def TransactionRaw.tag : TransactionRaw → Nat
  | .v1 _ => 0

/-- `TransactionV1.load`. -/
def TransactionV1.load : Des TransactionRaw :=
  liftLoad TransactionRaw.v1 TxV1.deserialize

/-- `Transaction.deserialize`: ULEB128 variant index, strict allow-list
`{0}`. -/
def Transaction.deserialize : Des TransactionRaw := fun b =>
  match readUleb32 b with
  | .error e => .error e
  | .ok (idx, rest) =>
    match idx with
    | 0 => TransactionV1.load rest
    | i => .error (.unknownVariant "Transaction" i)

/-! ## ABI document types

Modelled from the spec: `src/aptos_types/abi.ts` is not among the given
sources; the spec describes ScriptABI / EntryFunctionABI /
TransactionScriptABI / ArgumentABI / TypeArgumentABI as a function's name,
declaring module, ordered parameter type tags, and ordered
generic-type-parameter placeholders. -/

/-- `TypeArgumentABI`: a generic-type-parameter placeholder. -/
structure TypeArgumentABI where
  name : String

/-- `ArgumentABI`: a declared parameter name and its type tag. -/
structure ArgumentABI where
  name : String
  type_tag : TypeTag

/-- `EntryFunctionABI`: name, declaring module, doc, generic-type
parameters, declared parameters. -/
structure EntryFunctionABI where
  name : String
  module_name : ModuleId
  doc : String
  ty_args : List TypeArgumentABI
  args : List ArgumentABI

/-- `TransactionScriptABI`: name, doc, bytecode, generic-type parameters,
declared parameters. -/
structure TransactionScriptABI where
  name : String
  doc : String
  code : List Nat
  ty_args : List TypeArgumentABI
  args : List ArgumentABI

/-- `ScriptABI`: an ABI document is either an entry-function ABI or a
transaction-script ABI. -/
inductive ScriptABI where
  | entryFunction (abi : EntryFunctionABI) : ScriptABI
  | transactionScript (abi : TransactionScriptABI) : ScriptABI

/-- The declared parameter list of either ABI kind (`funcABI.args`). -/
def ScriptABI.params : ScriptABI → List ArgumentABI
  | .entryFunction f => f.args
  | .transactionScript f => f.args

/-! ## Builder errors (`src/transaction_builder/builders.ts` and modelled
collaborators) -/

/-- Builder-side failures. The first four mirror the throw sites of
`builders.ts` ("Found conflicting ABI interfaces", "Cannot find function:
<func>", "Wrong number of args provided.", "Invalid module id.", the
fully-qualified-name format check, "<func> doesn't exist."); the remainder
are modelled from the spec's error taxonomy for the type-tag grammar and
argument coercion (`MalformedTypeTag`, `ArgumentRangeError`,
`UnsupportedArgumentType`, and a shape mismatch of a supplied argument). -/
inductive BErr where
  | conflictingABI : BErr
  | cannotFindFunction (func : String) : BErr
  | wrongNumberOfArgs : BErr
  | invalidModuleId : BErr
  | invalidFuncFormat : BErr
  | funcDoesNotExist (func : String) : BErr
  | malformedTypeTag (s : String) : BErr
  | argumentRange : BErr
  | unsupportedArgumentType : BErr
  | invalidArgument : BErr
  deriving DecidableEq, Repr

/-! ## The ABI index (`TransactionBuilderABI` constructor) -/

/-- The builder's ABI index, modelling the `Map<string, ScriptABI>`. -/
abbrev AbiMap : Type := List (String × ScriptABI)

/-- `Map.get`: first binding of the key, if any. -/
def mapGet : AbiMap → String → Option ScriptABI
  | [], _ => none
  | (k, v) :: rest, key => if k = key then some v else mapGet rest key

/-- `Map.has`. -/
def mapHas (m : AbiMap) (k : String) : Bool :=
  (mapGet m k).isSome

/-- `Map.set` for a fresh key (the constructor only inserts after the
duplicate check). -/
def mapSet (m : AbiMap) (k : String) (v : ScriptABI) : AbiMap :=
  m ++ [(k, v)]

/-- The index key of an ABI document: `address::module::function` for entry
functions (address in `toShortString` form), the bare name for scripts. -/
def abiKey : ScriptABI → String
  | .entryFunction f =>
    toShortString f.module_name.address.address ++ "::" ++ f.module_name.name.value
      ++ "::" ++ f.name
  | .transactionScript f => f.name

/-- The constructor's `forEach` loop: deserialize each document (documents
are given already decoded, the binary ABI codec lives in the missing
`abi.ts`), compute its key, fail on a duplicate, otherwise insert. -/
def buildAbiMap : List ScriptABI → AbiMap → Except BErr AbiMap
  | [], m => .ok m
  | a :: rest, m =>
    if mapHas m (abiKey a) then .error .conflictingABI
    else buildAbiMap rest (mapSet m (abiKey a) a)

/-- The `TransactionBuilderABI` constructor: index the ABI documents,
failing fast on conflicting keys. -/
def TransactionBuilderABI.new (abis : List ScriptABI) : Except BErr AbiMap :=
  buildAbiMap abis []

/-! ## String helpers of the builder -/

/-- Worker for splitting on the `::` separator. -/
def splitCCGo : List Char → List Char → List (List Char)
  | [], acc => [acc.reverse]
  | ':' :: ':' :: rest, acc => acc.reverse :: splitCCGo rest []
  | c :: rest, acc => splitCCGo rest (c :: acc)

/-- `s.split("::")`. -/
def splitCC (s : String) : List String :=
  (splitCCGo s.data []).map fun l => ⟨l⟩

/-- `func.split("::")[0]`: the substring before the first `::`. -/
def beforeCC (s : String) : String :=
  (splitCC s).headD ""

/-- `ModuleId.fromStr`: split on `::`, requiring exactly two parts
("Invalid module id." otherwise). -/
def ModuleId.fromStr (s : String) : Except BErr ModuleId :=
  match splitCC s with
  | [a, n] => .ok ⟨AccountAddress.fromHex a, ⟨n⟩⟩
  | _ => .error .invalidModuleId

/-- Character-list worker of the remote builder's `normlize`. -/
def normlizeCore : List Char → List Char
  | '0' :: 'x' :: rest => '0' :: 'x' :: rest.dropWhile (· = '0')
  | '0' :: 'X' :: rest => '0' :: 'x' :: rest.dropWhile (· = '0')
  | l => l

/-- The remote builder's `normlize`: `s.replace(/^0[xX]0*/g, "0x")` — if the
string starts with a `0x`/`0X` marker, replace the marker and the following
run of zeros by `0x`; otherwise leave the string unchanged. -/
def normlize (s : String) : String :=
  ⟨normlizeCore s.data⟩

/-! ## Type-tag grammar

Modelled from the spec: `TypeTagParser` lives in the missing
`builder_utils.ts`.  The grammar: primitive keywords (`bool`, `u8`, `u16`,
`u32`, `u64`, `u128`, `u256`, `address`, `signer`), `vector<T>`, or a struct
reference `ADDR::MODULE::STRUCT` optionally followed by comma-separated
generics split at top-level commas only; whitespace is insignificant; the
empty string and anything else fail with `MalformedTypeTag`. -/

/-- Split a character list on top-level commas (commas nested inside
`<...>` do not split). -/
def splitTopGo : List Char → Nat → List Char → List (List Char)
  | [], _, acc => [acc.reverse]
  | '<' :: rest, d, acc => splitTopGo rest (d + 1) ('<' :: acc)
  | '>' :: rest, d, acc => splitTopGo rest (d - 1) ('>' :: acc)
  | ',' :: rest, 0, acc => acc.reverse :: splitTopGo rest 0 []
  | c :: rest, d, acc => splitTopGo rest d (c :: acc)

/-- Strip leading and trailing spaces. -/
def trimChars (l : List Char) : List Char :=
  ((l.dropWhile (· = ' ')).reverse.dropWhile (· = ' ')).reverse

mutual

/-- Modelled from the spec: fuel-driven recursive-descent type-tag parse on
character lists; fuel of the input length plus one always suffices. -/
def parseTT : Nat → List Char → Except BErr TypeTag
  | 0, l => .error (.malformedTypeTag ⟨l⟩)
  | fuel + 1, l =>
    let t := trimChars l
    if t = "bool".data then .ok .bool
    else if t = "u8".data then .ok .u8
    else if t = "u16".data then .ok .u16
    else if t = "u32".data then .ok .u32
    else if t = "u64".data then .ok .u64
    else if t = "u128".data then .ok .u128
    else if t = "u256".data then .ok .u256
    else if t = "address".data then .ok .address
    else if t = "signer".data then .ok .signer
    else if t.take 7 = "vector<".data then
      if t.getLast? = some '>' then
        match parseTT fuel ((t.drop 7).dropLast) with
        | .ok inner => .ok (.vector inner)
        | .error e => .error e
      else .error (.malformedTypeTag ⟨l⟩)
    else
      match splitCCGo t [] with
      | [a, m, nf] =>
        if nf.any (· = '<') then
          if nf.getLast? = some '>' then
            match parseTTList fuel (splitTopGo (((nf.dropWhile (· ≠ '<')).drop 1).dropLast) 0 []) with
            | .ok gens => .ok (.struct (AccountAddress.fromHex ⟨a⟩) ⟨⟨m⟩⟩
                ⟨⟨nf.takeWhile (· ≠ '<')⟩⟩ gens)
            | .error e => .error e
          else .error (.malformedTypeTag ⟨l⟩)
        else .ok (.struct (AccountAddress.fromHex ⟨a⟩) ⟨⟨m⟩⟩ ⟨⟨nf⟩⟩ [])
      | _ => .error (.malformedTypeTag ⟨l⟩)

/-- Modelled from the spec: parse each member of a generic-argument list. -/
def parseTTList : Nat → List (List Char) → Except BErr (List TypeTag)
  | 0, _ => .error (.malformedTypeTag "")
  | _ + 1, [] => .ok []
  | fuel + 1, x :: xs =>
    match parseTT fuel x with
    | .ok t =>
      match parseTTList fuel xs with
      | .ok ts => .ok (t :: ts)
      | .error e => .error e
    | .error e => .error e

end

/-- Modelled from the spec: `new TypeTagParser(s).parseTypeTag()`. -/
def parseTypeTagM (s : String) : Except BErr TypeTag :=
  parseTT (s.length + 1) s.data

/-! ## Argument coercion

Modelled from the spec: `serializeArg` lives in the missing
`builder_utils.ts`.  Per target-tag kind: integer kinds accept numeric or
decimal-string input and fail with `ArgumentRangeError` past the target
width; `bool` accepts boolean input only; `address` accepts a hex string or
a pre-parsed address; `vector<T>` accepts a sequence, coerced element-wise,
with a u8 fast path accepting a byte string or hex string directly; struct
kinds accept only already-encoded bytes, everything else failing with
`UnsupportedArgumentType`. -/

/-- The closed set of loosely-typed caller-argument shapes. -/
inductive RawArg where
  | num (n : Nat) : RawArg
  | str (s : String) : RawArg
  | boolean (b : Bool) : RawArg
  | addr (a : AccountAddress) : RawArg
  | bytes (b : List Nat) : RawArg
  | seq (xs : List RawArg) : RawArg

mutual

/-- Structural size of a raw argument (a computable fuel bound for the
coercion below). -/
def RawArg.size : RawArg → Nat
  | .seq xs => RawArg.sizeList xs + 1
  | _ => 1

/-- Structural size of a raw-argument list. -/
def RawArg.sizeList : List RawArg → Nat
  | [] => 0
  | x :: xs => RawArg.size x + RawArg.sizeList xs + 1

end

/-- Whether a type tag is the `u8` tag (the `instanceof TypeTagU8` test of
the u8-vector fast path). -/
def TypeTag.isU8 : TypeTag → Bool
  | .u8 => true
  | _ => false

/-- Numeric value of an integer-kind argument: numeric input directly,
decimal-string input parsed, anything else rejected. -/
def rawArgNum : RawArg → Option Nat
  | .num n => some n
  | .str s => s.toNat?
  | _ => none

/-- Integer-kind coercion: range-check against `256 ^ w` and encode on `w`
little-endian bytes. -/
def coerceInt (w : Nat) (arg : RawArg) : Except BErr (List Nat) :=
  match rawArgNum arg with
  | some n => if n < 256 ^ w then .ok (leBytes w n) else .error .argumentRange
  | none => .error .invalidArgument

mutual

/-- Modelled from the spec: fuel-driven `serializeArg` — coerce one raw
argument against a target type tag into its canonical byte encoding.  A fuel
of `sizeOf` the argument plus one always suffices. -/
def serializeArgF : Nat → RawArg → TypeTag → Except BErr (List Nat)
  | 0, _, _ => .error .invalidArgument
  | _ + 1, arg, .bool =>
    match arg with
    | .boolean b => .ok (serializeBool b)
    | _ => .error .invalidArgument
  | _ + 1, arg, .u8 => coerceInt 1 arg
  | _ + 1, arg, .u16 => coerceInt 2 arg
  | _ + 1, arg, .u32 => coerceInt 4 arg
  | _ + 1, arg, .u64 => coerceInt 8 arg
  | _ + 1, arg, .u128 => coerceInt 16 arg
  | _ + 1, arg, .u256 => coerceInt 32 arg
  | _ + 1, arg, .address =>
    match arg with
    | .addr a => .ok a.serialize
    | .str s => .ok (AccountAddress.fromHex s).serialize
    | _ => .error .invalidArgument
  | _ + 1, _, .signer => .error .unsupportedArgumentType
  | fuel + 1, arg, .vector t =>
    match arg with
    | .bytes b => if t.isU8 then .ok (serializeBytes b) else .error .invalidArgument
    | .str s =>
      if t.isU8 then .ok (serializeBytes ((dropHexMarker s).map Char.toNat))
      else .error .invalidArgument
    | .seq xs =>
      match serializeArgListF fuel xs t with
      | .ok bs => .ok (ulebEncode xs.length ++ bs)
      | .error e => .error e
    | _ => .error .invalidArgument
  | _ + 1, arg, .struct _ _ _ _ =>
    match arg with
    | .bytes b => .ok b
    | _ => .error .unsupportedArgumentType

/-- Modelled from the spec: element-wise coercion of a sequence against the
element tag. -/
def serializeArgListF : Nat → List RawArg → TypeTag → Except BErr (List Nat)
  | 0, _, _ => .error .invalidArgument
  | _ + 1, [], _ => .ok []
  | fuel + 1, x :: xs, t =>
    match serializeArgF fuel x t with
    | .ok b =>
      match serializeArgListF fuel xs t with
      | .ok bs => .ok (b ++ bs)
      | .error e => .error e
    | .error e => .error e

end

/-- Modelled from the spec: `serializeArg` with ample fuel. -/
def serializeArgM (arg : RawArg) (t : TypeTag) : Except BErr (List Nat) :=
  serializeArgF (RawArg.size arg + 1) arg t

/-! ## `TransactionBuilderABI.buildCall` -/

/-- `ty_tags.map((ty_arg) => new TypeTagParser(ty_arg).parseTypeTag())`:
parse each type-argument string, propagating the first failure. -/
def parseList (parse : String → Except BErr TypeTag) : List String → Except BErr (List TypeTag)
  | [] => .ok []
  | s :: rest =>
    match parse s with
    | .ok t =>
      match parseList parse rest with
      | .ok ts => .ok (t :: ts)
      | .error e => .error e
    | .error e => .error e

/-- Pairwise coercion of supplied arguments against the declared parameter
tags (the `args.map` of `toBCSArgs`, after the arity check passed). -/
def zipBCS (ser : RawArg → TypeTag → Except BErr (List Nat)) :
    List ArgumentABI → List RawArg → Except BErr (List (List Nat))
  | [], [] => .ok []
  | a :: as, x :: xs =>
    match ser x a.type_tag with
    | .ok b =>
      match zipBCS ser as xs with
      | .ok bs => .ok (b :: bs)
      | .error e => .error e
    | .error e => .error e
  | _, _ => .error .wrongNumberOfArgs

/-- `TransactionBuilderABI.toBCSArgs`: fail with "Wrong number of args
provided." when the lengths disagree, otherwise coerce pairwise. -/
def toBCSArgs (ser : RawArg → TypeTag → Except BErr (List Nat))
    (abiArgs : List ArgumentABI) (args : List RawArg) : Except BErr (List (List Nat)) :=
  if abiArgs.length ≠ args.length then .error .wrongNumberOfArgs
  else zipBCS ser abiArgs args

/-- `TransactionBuilderABI.buildCall`, parameterized by the signer list
placed into the built `TxV1` (the two copies of the file differ exactly
there), the type-tag parse and the argument coercion (both in the missing
`builder_utils.ts`): parse the type-argument strings, look up the ABI entry
("Cannot find function" if absent), coerce the arguments, and assemble the
`TxV1` — for an entry function the module address is parsed from the part of
`func` before the first `::`, the module and function names come from the
ABI entry; for a script the bytecode comes from the ABI entry. -/
def buildCallAux (signers : List Signer) (parse : String → Except BErr TypeTag)
    (ser : RawArg → TypeTag → Except BErr (List Nat)) (m : AbiMap)
    (func : String) (ty_tags : List String) (args : List RawArg) : Except BErr TxV1 :=
  match parseList parse ty_tags with
  | .error e => .error e
  | .ok typeTags =>
    match mapGet m func with
    | none => .error (.cannotFindFunction func)
    | some (.entryFunction funcABI) =>
      match toBCSArgs ser funcABI.args args with
      | .error e => .error e
      | .ok bcsargs =>
        .ok ⟨signers,
          .entryFunction ⟨AccountAddress.fromHex (beforeCC func),
            funcABI.module_name.name, ⟨funcABI.name⟩⟩,
          bcsargs, typeTags⟩
    | some (.transactionScript funcABI) =>
      match toBCSArgs ser funcABI.args args with
      | .error e => .error e
      | .ok bcsargs =>
        .ok ⟨signers, .script ⟨funcABI.code⟩, bcsargs, typeTags⟩

/-- `buildCall` exactly as in `src/transaction_builder/builders.ts`: the
built `TxV1`'s signer list is `[]`. -/
def TransactionBuilderABI.buildCall (parse : String → Except BErr TypeTag)
    (ser : RawArg → TypeTag → Except BErr (List Nat)) (m : AbiMap)
    (func : String) (ty_tags : List String) (args : List RawArg) : Except BErr TxV1 :=
  buildCallAux [] parse ser m func ty_tags args

/-- `buildCall` exactly as in `src/unnamed/part_000`: the built `TxV1`'s
signer list is `[new SignerPlaceholder()]`. -/
def TransactionBuilderABI.buildCallP0 (parse : String → Except BErr TypeTag)
    (ser : RawArg → TypeTag → Except BErr (List Nat)) (m : AbiMap)
    (func : String) (ty_tags : List String) (args : List RawArg) : Except BErr TxV1 :=
  buildCallAux [Signer.placeholder] parse ser m func ty_tags args

/-! ## `TransactionBuilderRemoteABI.build` -/

/-- `Gen.MoveFunction`, as consumed by the remote builder: name, declared
parameter type strings (including leading `signer`s), generic-type-parameter
count.  Modelled from the spec: the remote ABI source returns, per exposed
function, its name, declaring module/address, parameter type strings and
generic-type-parameter count. -/
structure MoveFunction where
  name : String
  params : List String
  generic_type_params : Nat

/-- Lookup in the fetched fullName-keyed ABI map. -/
def fetchedGet : List (String × MoveFunction) → String → Option MoveFunction
  | [], _ => none
  | (k, v) :: rest, key => if k = key then some v else fetchedGet rest key

/-- Build the `ArgumentABI`s `var0, var1, ...` from the filtered declared
parameter strings (`originalArgs.map((arg, i) => new ArgumentABI(...))`). -/
def parseArgABIs (parse : String → Except BErr TypeTag) :
    List String → Nat → Except BErr (List ArgumentABI)
  | [], _ => .ok []
  | s :: rest, i =>
    match parse s with
    | .ok t =>
      match parseArgABIs parse rest (i + 1) with
      | .ok as => .ok (⟨"var" ++ toString i, t⟩ :: as)
      | .error e => .error e
    | .error e => .error e

/-- The body of `TransactionBuilderRemoteABI.build` after normalization:
split the qualified name, look it up in the fetched ABI map ("<func> doesn't
exist." if absent), filter every `signer`/`&signer` out of the declared
parameter list, parse the remaining parameter strings, synthesize the
`EntryFunctionABI`, index it (the `bcsToBytes`/`ScriptABI.deserialize`
round trip through the missing ABI codec is modelled as the identity), and
delegate to `buildCall`, wrapping the result in `Transaction::V1`. -/
def remoteGo (signers : List Signer) (parse : String → Except BErr TypeTag)
    (ser : RawArg → TypeTag → Except BErr (List Nat))
    (fetched : List (String × MoveFunction)) (func : String)
    (ty_tags : List String) (args : List RawArg) : Except BErr Transaction :=
  match splitCC func with
  | [addr, module, _] =>
    match fetchedGet fetched func with
    | none => .error (.funcDoesNotExist func)
    | some funcAbi =>
      match parseArgABIs parse
          (funcAbi.params.filter fun p => p ≠ "signer" && p ≠ "&signer") 0 with
      | .error e => .error e
      | .ok typeArgABIs =>
        match ModuleId.fromStr (addr ++ "::" ++ module) with
        | .error e => .error e
        | .ok mid =>
          match TransactionBuilderABI.new [.entryFunction
              ⟨funcAbi.name, mid, "",
                (List.range funcAbi.generic_type_params).map fun i => ⟨toString i⟩,
                typeArgABIs⟩] with
          | .error e => .error e
          | .ok m =>
            match buildCallAux signers parse ser m func ty_tags args with
            | .ok tx => .ok (.v1 tx)
            | .error e => .error e
  | _ => .error .invalidFuncFormat

/-- `TransactionBuilderRemoteABI.build`: normalize the qualified function
name (strip redundant zeros after the `0x` marker) and run the remote build
on the normalized name.  Parameterized like `buildCallAux` by the signer
list of the underlying `buildCall` (empty in
`src/transaction_builder/builders.ts`, one `Placeholder` in
`src/unnamed/part_000`). -/
def remoteBuildAux (signers : List Signer) (parse : String → Except BErr TypeTag)
    (ser : RawArg → TypeTag → Except BErr (List Nat))
    (fetched : List (String × MoveFunction)) (func : String)
    (ty_tags : List String) (args : List RawArg) : Except BErr Transaction :=
  remoteGo signers parse ser fetched (normlize func) ty_tags args

/-! ## Helper lemmas -/

theorem liftLoad_ok {β α : Type} (C : β → α) (d : Des β) (b : List Nat)
    (v : α) (r : List Nat) (h : liftLoad C d b = .ok (v, r)) :
    ∃ x, d b = .ok (x, r) ∧ v = C x := by
  unfold liftLoad at h
  split at h
  · rename_i x r2 hd
    cases h
    exact ⟨x, hd, rfl⟩
  · cases h

theorem toBCSArgs_ok_length (ser : RawArg → TypeTag → Except BErr (List Nat))
    (abiArgs : List ArgumentABI) (args : List RawArg) (r : List (List Nat))
    (h : toBCSArgs ser abiArgs args = .ok r) : abiArgs.length = args.length := by
  unfold toBCSArgs at h
  by_cases hl : abiArgs.length = args.length
  · exact hl
  · rw [if_pos hl] at h; cases h

theorem buildCallAux_signers (sg : List Signer) (parse : String → Except BErr TypeTag)
    (ser : RawArg → TypeTag → Except BErr (List Nat)) (m : AbiMap) (func : String)
    (tys : List String) (args : List RawArg) (tx : TxV1)
    (h : buildCallAux sg parse ser m func tys args = .ok tx) : tx.signers = sg := by
  unfold buildCallAux at h
  split at h
  · cases h
  · split at h
    · cases h
    · split at h
      · cases h
      · cases h; rfl
    · split at h
      · cases h
      · cases h; rfl

theorem buildCallAux_ok_lookup (sg : List Signer) (parse : String → Except BErr TypeTag)
    (ser : RawArg → TypeTag → Except BErr (List Nat)) (m : AbiMap) (func : String)
    (tys : List String) (args : List RawArg) (tx : TxV1)
    (h : buildCallAux sg parse ser m func tys args = .ok tx) :
    ∃ abi, mapGet m func = some abi ∧ abi.params.length = args.length := by
  unfold buildCallAux at h
  split at h
  · cases h
  · split at h
    · cases h
    · rename_i fa hg
      split at h
      · cases h
      · rename_i bs hb
        exact ⟨.entryFunction fa, hg, toBCSArgs_ok_length ser fa.args args bs hb⟩
    · rename_i fa hg
      split at h
      · cases h
      · rename_i bs hb
        exact ⟨.transactionScript fa, hg, toBCSArgs_ok_length ser fa.args args bs hb⟩

theorem buildCallAux_entry_call (sg : List Signer) (parse : String → Except BErr TypeTag)
    (ser : RawArg → TypeTag → Except BErr (List Nat)) (m : AbiMap) (func : String)
    (tys : List String) (args : List RawArg) (tx : TxV1) (fa : EntryFunctionABI)
    (h : buildCallAux sg parse ser m func tys args = .ok tx)
    (hg : mapGet m func = some (.entryFunction fa)) :
    tx.call = .entryFunction ⟨AccountAddress.fromHex (beforeCC func),
      fa.module_name.name, ⟨fa.name⟩⟩ := by
  unfold buildCallAux at h
  split at h
  · cases h
  · split at h
    · cases h
    · rename_i fa2 hg2
      rw [hg2] at hg
      cases hg
      split at h
      · cases h
      · cases h; rfl
    · rename_i fa2 hg2
      rw [hg2] at hg
      cases hg

theorem parseArgABIs_length (parse : String → Except BErr TypeTag)
    (ss : List String) (i : Nat) (r : List ArgumentABI)
    (h : parseArgABIs parse ss i = .ok r) : r.length = ss.length := by
  induction ss generalizing i r with
  | nil => unfold parseArgABIs at h; cases h; rfl
  | cons s rest ih =>
    unfold parseArgABIs at h
    cases hp : parse s with
    | error e => rw [hp] at h; cases h
    | ok t =>
      rw [hp] at h
      cases hr : parseArgABIs parse rest (i + 1) with
      | error e => rw [hr] at h; cases h
      | ok as =>
        rw [hr] at h
        cases h
        simp [ih (i + 1) as hr]

theorem mapGet_set (m : AbiMap) (k : String) (v : ScriptABI) (k2 : String) :
    mapGet (mapSet m k v) k2 =
      match mapGet m k2 with
      | some x => some x
      | none => if k = k2 then some v else none := by
  induction m with
  | nil => simp [mapSet, mapGet]
  | cons p rest ih =>
    by_cases h : p.1 = k2
    · simp [mapSet, mapGet, h]
    · simpa [mapSet, mapGet, h] using ih

theorem buildAbiMap_ok_not_has (l : List ScriptABI) :
    ∀ (m m2 : AbiMap), buildAbiMap l m = .ok m2 →
      ∀ a ∈ l, mapGet m (abiKey a) = none := by
  induction l with
  | nil => intro m m2 h a ha; cases ha
  | cons b rest ih =>
    intro m m2 h a ha
    unfold buildAbiMap at h
    by_cases hb : mapHas m (abiKey b)
    · rw [if_pos hb] at h; cases h
    · rw [if_neg hb] at h
      rcases List.mem_cons.mp ha with rfl | ha
      · unfold mapHas at hb
        cases hg : mapGet m (abiKey a)
        · rfl
        · rw [hg] at hb; simp at hb
      · have := ih (mapSet m (abiKey b) b) m2 h a ha
        rw [mapGet_set] at this
        cases hg : mapGet m (abiKey a)
        · rfl
        · rw [hg] at this; cases this

theorem buildAbiMap_ok_pairwise (l : List ScriptABI) :
    ∀ (m m2 : AbiMap), buildAbiMap l m = .ok m2 →
      List.Pairwise (fun a b => abiKey a ≠ abiKey b) l := by
  induction l with
  | nil => intro m m2 h; exact List.Pairwise.nil
  | cons b rest ih =>
    intro m m2 h
    unfold buildAbiMap at h
    by_cases hb : mapHas m (abiKey b)
    · rw [if_pos hb] at h; cases h
    · rw [if_neg hb] at h
      refine List.Pairwise.cons ?_ (ih (mapSet m (abiKey b) b) m2 h)
      intro c hc hkey
      have hnone := buildAbiMap_ok_not_has rest (mapSet m (abiKey b) b) m2 h c hc
      rw [mapGet_set] at hnone
      cases hg : mapGet m (abiKey c) with
      | some x => rw [hg] at hnone; cases hnone
      | none =>
        rw [hg, hkey] at hnone
        simp at hnone

theorem buildAbiMap_ok_preserve (l : List ScriptABI) :
    ∀ (m m2 : AbiMap), buildAbiMap l m = .ok m2 →
      ∀ k, (∀ a ∈ l, abiKey a ≠ k) → mapGet m2 k = mapGet m k := by
  induction l with
  | nil => intro m m2 h k hk; unfold buildAbiMap at h; cases h; rfl
  | cons b rest ih =>
    intro m m2 h k hk
    unfold buildAbiMap at h
    by_cases hb : mapHas m (abiKey b)
    · rw [if_pos hb] at h; cases h
    · rw [if_neg hb] at h
      have step := ih (mapSet m (abiKey b) b) m2 h k
        fun a ha => hk a (List.mem_cons_of_mem b ha)
      rw [step, mapGet_set]
      cases hg : mapGet m k with
      | some x => rfl
      | none =>
        have : abiKey b ≠ k := hk b (List.mem_cons_self b rest)
        simp [this]

theorem buildAbiMap_ok_get (l : List ScriptABI) :
    ∀ (m m2 : AbiMap), buildAbiMap l m = .ok m2 →
      List.Pairwise (fun a b => abiKey a ≠ abiKey b) l →
      ∀ a ∈ l, mapGet m2 (abiKey a) = some a := by
  induction l with
  | nil => intro m m2 h hp a ha; cases ha
  | cons b rest ih =>
    intro m m2 h hp a ha
    unfold buildAbiMap at h
    by_cases hb : mapHas m (abiKey b)
    · rw [if_pos hb] at h; cases h
    · rw [if_neg hb] at h
      rcases List.mem_cons.mp ha with rfl | ha
      · have hpre := buildAbiMap_ok_preserve rest (mapSet m (abiKey a) a) m2 h
          (abiKey a) fun c hc hkey =>
            ((List.pairwise_cons.mp hp).1 c hc) hkey.symm
        rw [hpre, mapGet_set]
        unfold mapHas at hb
        cases hg : mapGet m (abiKey a) with
        | some x => rw [hg] at hb; simp at hb
        | none => simp
      · exact ih (mapSet m (abiKey b) b) m2 h (List.pairwise_cons.mp hp).2 a ha

theorem buildAbiMap_total (l : List ScriptABI) :
    ∀ (m : AbiMap), buildAbiMap l m = .error .conflictingABI ∨
      ∃ m2, buildAbiMap l m = .ok m2 := by
  induction l with
  | nil => intro m; exact Or.inr ⟨m, rfl⟩
  | cons b rest ih =>
    intro m
    unfold buildAbiMap
    by_cases hb : mapHas m (abiKey b)
    · rw [if_pos hb]; exact Or.inl rfl
    · rw [if_neg hb]; exact ih (mapSet m (abiKey b) b)

theorem buildAbiMap_succeeds (l : List ScriptABI) :
    ∀ (m : AbiMap), List.Pairwise (fun a b => abiKey a ≠ abiKey b) l →
      (∀ a ∈ l, mapGet m (abiKey a) = none) →
      ∃ m2, buildAbiMap l m = .ok m2 := by
  induction l with
  | nil => intro m hp hm; exact ⟨m, rfl⟩
  | cons b rest ih =>
    intro m hp hm
    unfold buildAbiMap
    have hb : ¬ mapHas m (abiKey b) := by
      unfold mapHas
      rw [hm b (List.mem_cons_self b rest)]
      simp
    rw [if_neg hb]
    refine ih (mapSet m (abiKey b) b) (List.pairwise_cons.mp hp).2 ?_
    intro a ha
    rw [mapGet_set, hm a (List.mem_cons_of_mem b ha)]
    have : abiKey b ≠ abiKey a := (List.pairwise_cons.mp hp).1 a ha
    simp [this]

theorem dropWhile_append_all_zero (z r : List Char)
    (hz : ∀ c ∈ z, c = '0') :
    (z ++ r).dropWhile (· = '0') = r.dropWhile (· = '0') := by
  induction z with
  | nil => rfl
  | cons c cs ih =>
    have hc : c = '0' := hz c (List.mem_cons_self c cs)
    simp only [List.cons_append, List.dropWhile]
    rw [hc]
    simpa using ih fun d hd => hz d (List.mem_cons_of_mem c hd)

/-- The `switch` body of `Call.deserialize` as a function of the read
index. -/
def Call.dispatch : Nat → Des Call := fun idx rest =>
  match idx with
  | 0 => CallScript.load rest
  | 1 => CallEntryFunction.load rest
  | i => .error (.unknownVariant "Call" i)

/-- The `switch` body of `Signer.deserialize` as a function of the read
index. -/
def Signer.dispatch : Nat → Des Signer := fun idx rest =>
  match idx with
  | 0 => SignerRoot.load rest
  | 1 => SignerPlaceholder.load rest
  | 2 => SignerName.load rest
  | i => .error (.unknownVariant "Signer" i)

/-- The `switch` body of `TransactionArgument.deserialize` as a function of
the read index. -/
def TransactionArgument.dispatch : Nat → Des TransactionArgument := fun idx rest =>
  match idx with
  | 0 => TransactionArgumentU8.load rest
  | 1 => TransactionArgumentU64.load rest
  | 2 => TransactionArgumentU128.load rest
  | 3 => TransactionArgumentAddress.load rest
  | 4 => TransactionArgumentU8Vector.load rest
  | 5 => TransactionArgumentBool.load rest
  | 6 => TransactionArgumentU16.load rest
  | 7 => TransactionArgumentU32.load rest
  | 8 => TransactionArgumentU256.load rest
  | i => .error (.unknownVariant "TransactionArgument" i)

/-- The `switch` body of `Transaction.deserialize` as a function of the read
index. -/
def Transaction.dispatch : Nat → Des TransactionRaw := fun idx rest =>
  match idx with
  | 0 => TransactionV1.load rest
  | i => .error (.unknownVariant "Transaction" i)

theorem call_deserialize_read (bytes : List Nat) (idx : Nat) (rest : List Nat)
    (h : readUleb32 bytes = .ok (idx, rest)) :
    Call.deserialize bytes = Call.dispatch idx rest := by
  unfold Call.deserialize
  rw [h]
  rfl

theorem signer_deserialize_read (bytes : List Nat) (idx : Nat) (rest : List Nat)
    (h : readUleb32 bytes = .ok (idx, rest)) :
    Signer.deserialize bytes = Signer.dispatch idx rest := by
  unfold Signer.deserialize
  rw [h]
  rfl

theorem txarg_deserialize_read (bytes : List Nat) (idx : Nat)
    (rest : List Nat) (h : readUleb32 bytes = .ok (idx, rest)) :
    TransactionArgument.deserialize bytes = TransactionArgument.dispatch idx rest := by
  unfold TransactionArgument.deserialize
  rw [h]
  rfl

theorem transaction_deserialize_read (bytes : List Nat) (idx : Nat) (rest : List Nat)
    (h : readUleb32 bytes = .ok (idx, rest)) :
    Transaction.deserialize bytes = Transaction.dispatch idx rest := by
  unfold Transaction.deserialize
  rw [h]
  rfl

/-! ## Claim theorems -/

/-- The TxV1 value exhibiting the signer round-trip failure: one
`Placeholder` signer, an empty script call, no arguments, no type
arguments. -/
def c1FailingTx : TxV1 :=
  ⟨[.placeholder], .script ⟨[]⟩, [], []⟩

/-- C1: the serialize/deserialize round trip of the TxV1 body fails on every
non-empty signer sequence.  At the failing input, `serialize` writes the
signer vector as `[1, 1]` (count, then the Placeholder variant index), but
`TxV1.deserialize` reads the signer sequence with
`TransactionArgument.deserialize`, so tag 1 selects the U64 loader, which
consumes the remaining four bytes looking for eight and fails with
end-of-input instead of returning the original value.  The `Signer` codec on
its own round-trips the same signer, isolating the slip to `TxV1`'s use of
`TransactionArgument` for its signer field. -/
theorem txv1_roundtrip_failure :
    c1FailingTx.serialize = [1, 1, 0, 0, 0, 0]
    ∧ TxV1.deserialize (TxV1.serialize c1FailingTx) = .error .endOfInput
    ∧ Signer.deserialize (Signer.serialize .placeholder) = .ok (.placeholder, []) :=
  ⟨rfl, rfl, rfl⟩

/-- C2 (amended): for every successful `buildCall`, the signer sequence of
the returned TxV1 is the one hard-coded at the construction site — empty in
the `src/transaction_builder/builders.ts` copy, exactly one `Placeholder` in
the `src/unnamed/part_000` copy. -/
theorem buildCall_signer_sequences (parse : String → Except BErr TypeTag)
    (ser : RawArg → TypeTag → Except BErr (List Nat)) (m : AbiMap)
    (func : String) (tys : List String) (args : List RawArg) :
    (∀ tx, TransactionBuilderABI.buildCall parse ser m func tys args = .ok tx →
      tx.signers = [])
    ∧ (∀ tx, TransactionBuilderABI.buildCallP0 parse ser m func tys args = .ok tx →
      tx.signers = [Signer.placeholder]) :=
  ⟨fun tx h => buildCallAux_signers [] parse ser m func tys args tx h,
   fun tx h => buildCallAux_signers [Signer.placeholder] parse ser m func tys args tx h⟩

/-- A sample script ABI document and the index holding it. -/
def sampleScriptABI : ScriptABI :=
  .transactionScript ⟨"main", "", [7], [], []⟩

/-- The index holding only `sampleScriptABI` under its bare name. -/
def sampleMap : AbiMap :=
  [("main", sampleScriptABI)]

/-- C2 (counterexample): a successful `buildCall` of the
`src/transaction_builder/builders.ts` copy returns a TxV1 whose signer
sequence is empty, not a single `Placeholder`. -/
theorem buildCall_signers_empty_counterexample :
    TransactionBuilderABI.buildCall parseTypeTagM serializeArgM sampleMap "main" [] []
      = .ok ⟨[], .script ⟨[7]⟩, [], []⟩
    ∧ ([] : List Signer) ≠ [Signer.placeholder] :=
  ⟨rfl, by decide⟩

/-- C2 (witness): the two signer-sequence facts evaluated on a concrete
successful build. -/
theorem buildCall_signer_sequences_witness :
    (⟨[], .script ⟨[7]⟩, [], []⟩ : TxV1).signers = []
    ∧ (⟨[Signer.placeholder], .script ⟨[7]⟩, [], []⟩ : TxV1).signers
      = [Signer.placeholder] :=
  ⟨(buildCall_signer_sequences parseTypeTagM serializeArgM sampleMap "main" [] []).1 _ rfl,
   (buildCall_signer_sequences parseTypeTagM serializeArgM sampleMap "main" [] []).2 _ rfl⟩

/-- C4 (amended): whenever every type-argument string parses and the supplied
argument count differs from the resolved ABI entry's declared parameter
count, `buildCall` fails with the arity error ("Wrong number of args
provided.") for every coercion function — in particular no per-argument
coercion influences the outcome and no TxV1 is returned. -/
theorem buildCall_arity (sg : List Signer) (parse : String → Except BErr TypeTag)
    (m : AbiMap) (func : String) (tys : List String) (args : List RawArg)
    (tags : List TypeTag) (abi : ScriptABI)
    (hp : parseList parse tys = .ok tags)
    (hg : mapGet m func = some abi)
    (hlen : abi.params.length ≠ args.length) :
    ∀ ser, buildCallAux sg parse ser m func tys args = .error .wrongNumberOfArgs := by
  intro ser
  cases abi with
  | entryFunction fa =>
    have hl : fa.args.length ≠ args.length := hlen
    have hb : toBCSArgs ser fa.args args = .error .wrongNumberOfArgs := by
      unfold toBCSArgs
      rw [if_pos hl]
    simp only [buildCallAux, hp, hg, hb]
  | transactionScript fa =>
    have hl : fa.args.length ≠ args.length := hlen
    have hb : toBCSArgs ser fa.args args = .error .wrongNumberOfArgs := by
      unfold toBCSArgs
      rw [if_pos hl]
    simp only [buildCallAux, hp, hg, hb]

/-- C4 (counterexample): an invocation whose argument count (1) differs from
the resolved entry's declared parameter count (0) but which fails with
`MalformedTypeTag` — the type-argument strings are parsed before the arity
check, so the claimed "always fails with the arity error" does not hold. -/
theorem buildCall_arity_counterexample :
    mapGet sampleMap "main" = some sampleScriptABI
    ∧ sampleScriptABI.params.length ≠ ([RawArg.num 1] : List RawArg).length
    ∧ TransactionBuilderABI.buildCall parseTypeTagM serializeArgM sampleMap
        "main" [""] [.num 1] = .error (.malformedTypeTag "")
    ∧ BErr.malformedTypeTag "" ≠ .wrongNumberOfArgs :=
  ⟨rfl, by decide, rfl, by decide⟩

/-- C4 (witness): the arity failure evaluated on a concrete invocation. -/
theorem buildCall_arity_witness :
    TransactionBuilderABI.buildCall parseTypeTagM serializeArgM sampleMap
      "main" [] [.num 1] = .error .wrongNumberOfArgs :=
  buildCall_arity [] parseTypeTagM sampleMap "main" [] [.num 1] [] sampleScriptABI
    rfl rfl (by decide) serializeArgM

/-- C5: constructing the builder from ABI documents fails with the
conflicting-ABI error exactly when two documents resolve to the same index
key (`address::module::function` for entry functions, bare name for
scripts); with pairwise-distinct keys it succeeds and indexes every document
under its key. -/
theorem abi_index_conflicts (abis : List ScriptABI) :
    (¬ List.Pairwise (fun a b => abiKey a ≠ abiKey b) abis →
      TransactionBuilderABI.new abis = .error .conflictingABI)
    ∧ (List.Pairwise (fun a b => abiKey a ≠ abiKey b) abis →
      ∃ m, TransactionBuilderABI.new abis = .ok m ∧
        ∀ a ∈ abis, mapGet m (abiKey a) = some a) := by
  constructor
  · intro hnp
    rcases buildAbiMap_total abis [] with h | ⟨m2, h⟩
    · exact h
    · exact absurd (buildAbiMap_ok_pairwise abis [] m2 h) hnp
  · intro hp
    obtain ⟨m2, h⟩ := buildAbiMap_succeeds abis [] hp fun a _ => rfl
    exact ⟨m2, h, buildAbiMap_ok_get abis [] m2 h hp⟩

/-- A second sample script ABI with a distinct key. -/
def sampleScriptABI2 : ScriptABI :=
  .transactionScript ⟨"other", "", [9], [], []⟩

/-- C5 (witness): conflict on a duplicated document, success and full
indexing on two distinct documents. -/
theorem abi_index_conflicts_witness :
    TransactionBuilderABI.new [sampleScriptABI, sampleScriptABI]
      = .error .conflictingABI
    ∧ ∃ m, TransactionBuilderABI.new [sampleScriptABI, sampleScriptABI2] = .ok m ∧
        ∀ a ∈ [sampleScriptABI, sampleScriptABI2], mapGet m (abiKey a) = some a :=
  ⟨(abi_index_conflicts [sampleScriptABI, sampleScriptABI]).1 (by decide),
   (abi_index_conflicts [sampleScriptABI, sampleScriptABI2]).2 (by decide)⟩

/-- C6 (amended): whenever every type-argument string parses and the
fully-qualified function name is not a key of the ABI index, `buildCall`
fails with "Cannot find function: <func>" (the embedding is pure, so the
builder's index is read-only throughout). -/
theorem buildCall_unknown_function (sg : List Signer)
    (parse : String → Except BErr TypeTag)
    (ser : RawArg → TypeTag → Except BErr (List Nat)) (m : AbiMap)
    (func : String) (tys : List String) (args : List RawArg) (tags : List TypeTag)
    (hp : parseList parse tys = .ok tags) (hg : mapGet m func = none) :
    buildCallAux sg parse ser m func tys args = .error (.cannotFindFunction func) := by
  unfold buildCallAux
  rw [hp, hg]

/-- C6 (counterexample): with an absent function name but a malformed
type-argument string, `buildCall` fails with `MalformedTypeTag`, not with
the unknown-function error — parsing runs before the lookup. -/
theorem buildCall_unknown_function_counterexample :
    mapGet [] "0x1::a::b" = none
    ∧ TransactionBuilderABI.buildCall parseTypeTagM serializeArgM []
        "0x1::a::b" [""] [] = .error (.malformedTypeTag "")
    ∧ BErr.malformedTypeTag "" ≠ .cannotFindFunction "0x1::a::b" :=
  ⟨rfl, rfl, by decide⟩

/-- C6 (witness): the unknown-function failure evaluated on a concrete
invocation with no type arguments. -/
theorem buildCall_unknown_function_witness :
    TransactionBuilderABI.buildCall parseTypeTagM serializeArgM []
      "0x1::a::b" [] [] = .error (.cannotFindFunction "0x1::a::b") :=
  buildCall_unknown_function [] parseTypeTagM serializeArgM [] "0x1::a::b" [] [] []
    rfl rfl

/-- C3: each tagged-union `deserialize` first reads a ULEB128 variant index;
every index outside the type's closed set (Call `{0, 1}`, Signer
`{0, 1, 2}`, TransactionArgument `{0, ..., 8}`, Transaction `{0}`) fails
with the unknown-variant error naming the type and that index, and every
index inside the set dispatches to that variant's field loader, so that any
successfully decoded value carries exactly the read index as its variant
tag. -/
theorem variant_dispatch (bytes : List Nat) (idx : Nat) (rest : List Nat)
    (h : readUleb32 bytes = .ok (idx, rest)) :
    ((2 ≤ idx → Call.deserialize bytes = .error (.unknownVariant "Call" idx))
      ∧ (idx = 0 → Call.deserialize bytes = CallScript.load rest)
      ∧ (idx = 1 → Call.deserialize bytes = CallEntryFunction.load rest)
      ∧ ∀ v r, Call.deserialize bytes = .ok (v, r) → v.tag = idx)
    ∧ ((3 ≤ idx → Signer.deserialize bytes = .error (.unknownVariant "Signer" idx))
      ∧ (idx = 0 → Signer.deserialize bytes = SignerRoot.load rest)
      ∧ (idx = 1 → Signer.deserialize bytes = SignerPlaceholder.load rest)
      ∧ (idx = 2 → Signer.deserialize bytes = SignerName.load rest)
      ∧ ∀ v r, Signer.deserialize bytes = .ok (v, r) → v.tag = idx)
    ∧ ((9 ≤ idx → TransactionArgument.deserialize bytes
          = .error (.unknownVariant "TransactionArgument" idx))
      ∧ (idx = 0 → TransactionArgument.deserialize bytes = TransactionArgumentU8.load rest)
      ∧ (idx = 1 → TransactionArgument.deserialize bytes = TransactionArgumentU64.load rest)
      ∧ (idx = 2 → TransactionArgument.deserialize bytes = TransactionArgumentU128.load rest)
      ∧ (idx = 3 → TransactionArgument.deserialize bytes = TransactionArgumentAddress.load rest)
      ∧ (idx = 4 → TransactionArgument.deserialize bytes = TransactionArgumentU8Vector.load rest)
      ∧ (idx = 5 → TransactionArgument.deserialize bytes = TransactionArgumentBool.load rest)
      ∧ (idx = 6 → TransactionArgument.deserialize bytes = TransactionArgumentU16.load rest)
      ∧ (idx = 7 → TransactionArgument.deserialize bytes = TransactionArgumentU32.load rest)
      ∧ (idx = 8 → TransactionArgument.deserialize bytes = TransactionArgumentU256.load rest)
      ∧ ∀ v r, TransactionArgument.deserialize bytes = .ok (v, r) → v.tag = idx)
    ∧ ((1 ≤ idx → Transaction.deserialize bytes = .error (.unknownVariant "Transaction" idx))
      ∧ (idx = 0 → Transaction.deserialize bytes = TransactionV1.load rest)
      ∧ ∀ v r, Transaction.deserialize bytes = .ok (v, r) → v.tag = idx) := by
  have hc := call_deserialize_read bytes idx rest h
  have hs := signer_deserialize_read bytes idx rest h
  have ht := txarg_deserialize_read bytes idx rest h
  have hx := transaction_deserialize_read bytes idx rest h
  clear h
  refine ⟨⟨?_, ?_, ?_, ?_⟩, ⟨?_, ?_, ?_, ?_, ?_⟩,
    ⟨?_, ?_, ?_, ?_, ?_, ?_, ?_, ?_, ?_, ?_, ?_⟩, ⟨?_, ?_, ?_⟩⟩
  · intro hge
    obtain ⟨i, rfl⟩ : ∃ i, idx = i + 2 := ⟨idx - 2, by omega⟩
    exact hc.trans rfl
  · rintro rfl; exact hc.trans rfl
  · rintro rfl; exact hc.trans rfl
  · intro v r hvr
    rw [hc] at hvr
    clear hc hs ht hx
    match idx, hvr with
    | 0, hvr =>
      obtain ⟨x, _, rfl⟩ := liftLoad_ok Call.script Script.deserialize rest v r hvr
      rfl
    | 1, hvr =>
      obtain ⟨x, _, rfl⟩ := liftLoad_ok Call.entryFunction EntryFunction.deserialize rest v r hvr
      rfl
    | i + 2, hvr => exact Except.noConfusion hvr
  · intro hge
    obtain ⟨i, rfl⟩ : ∃ i, idx = i + 3 := ⟨idx - 3, by omega⟩
    exact hs.trans rfl
  · rintro rfl; exact hs.trans rfl
  · rintro rfl; exact hs.trans rfl
  · rintro rfl; exact hs.trans rfl
  · intro v r hvr
    rw [hs] at hvr
    clear hc hs ht hx
    match idx, hvr with
    | 0, hvr => cases hvr; rfl
    | 1, hvr => cases hvr; rfl
    | 2, hvr =>
      obtain ⟨x, _, rfl⟩ := liftLoad_ok Signer.name readStr rest v r hvr
      rfl
    | i + 3, hvr => exact Except.noConfusion hvr
  · intro hge
    obtain ⟨i, rfl⟩ : ∃ i, idx = i + 9 := ⟨idx - 9, by omega⟩
    exact ht.trans rfl
  · rintro rfl; exact ht.trans rfl
  · rintro rfl; exact ht.trans rfl
  · rintro rfl; exact ht.trans rfl
  · rintro rfl; exact ht.trans rfl
  · rintro rfl; exact ht.trans rfl
  · rintro rfl; exact ht.trans rfl
  · rintro rfl; exact ht.trans rfl
  · rintro rfl; exact ht.trans rfl
  · rintro rfl; exact ht.trans rfl
  · intro v r hvr
    rw [ht] at hvr
    clear hc hs ht hx
    match idx, hvr with
    | 0, hvr =>
      obtain ⟨x, _, rfl⟩ := liftLoad_ok TransactionArgument.u8 (leReadE 1) rest v r hvr
      rfl
    | 1, hvr =>
      obtain ⟨x, _, rfl⟩ := liftLoad_ok TransactionArgument.u64 (leReadE 8) rest v r hvr
      rfl
    | 2, hvr =>
      obtain ⟨x, _, rfl⟩ := liftLoad_ok TransactionArgument.u128 (leReadE 16) rest v r hvr
      rfl
    | 3, hvr =>
      obtain ⟨x, _, rfl⟩ := liftLoad_ok TransactionArgument.address
        AccountAddress.deserialize rest v r hvr
      rfl
    | 4, hvr =>
      obtain ⟨x, _, rfl⟩ := liftLoad_ok TransactionArgument.u8vector readBytes rest v r hvr
      rfl
    | 5, hvr =>
      obtain ⟨x, _, rfl⟩ := liftLoad_ok TransactionArgument.bool readBool rest v r hvr
      rfl
    | 6, hvr =>
      obtain ⟨x, _, rfl⟩ := liftLoad_ok TransactionArgument.u16 (leReadE 2) rest v r hvr
      rfl
    | 7, hvr =>
      obtain ⟨x, _, rfl⟩ := liftLoad_ok TransactionArgument.u32 (leReadE 4) rest v r hvr
      rfl
    | 8, hvr =>
      obtain ⟨x, _, rfl⟩ := liftLoad_ok TransactionArgument.u256 (leReadE 32) rest v r hvr
      rfl
    | i + 9, hvr => exact Except.noConfusion hvr
  · intro hge
    obtain ⟨i, rfl⟩ : ∃ i, idx = i + 1 := ⟨idx - 1, by omega⟩
    exact hx.trans rfl
  · rintro rfl; exact hx.trans rfl
  · intro v r hvr
    rw [hx] at hvr
    clear hc hs ht hx
    match idx, hvr with
    | 0, hvr =>
      obtain ⟨x, _, rfl⟩ := liftLoad_ok TransactionRaw.v1 TxV1.deserialize rest v r hvr
      rfl
    | i + 1, hvr => exact Except.noConfusion hvr

/-- C3 (witness): the dispatch facts evaluated on concrete byte strings —
index 3 is rejected by `Call` and `Signer` but dispatches to the address
loader for `TransactionArgument`; index 9 is rejected by
`TransactionArgument` and `Transaction`; index 0 dispatches `Call` to the
script loader. -/
theorem variant_dispatch_witness :
    Call.deserialize [3] = .error (.unknownVariant "Call" 3)
    ∧ Signer.deserialize [3] = .error (.unknownVariant "Signer" 3)
    ∧ TransactionArgument.deserialize [3] = TransactionArgumentAddress.load []
    ∧ TransactionArgument.deserialize [9] = .error (.unknownVariant "TransactionArgument" 9)
    ∧ Transaction.deserialize [9] = .error (.unknownVariant "Transaction" 9)
    ∧ Call.deserialize [0, 0] = CallScript.load [0] :=
  ⟨((variant_dispatch [3] 3 [] rfl).1).1 (by decide),
   ((variant_dispatch [3] 3 [] rfl).2.1).1 (by decide),
   ((variant_dispatch [3] 3 [] rfl).2.2.1).2.2.2.2.1 rfl,
   ((variant_dispatch [9] 9 [] rfl).2.2.1).1 (by decide),
   ((variant_dispatch [9] 9 [] rfl).2.2.2).1 (by decide),
   ((variant_dispatch [0, 0] 0 [0] rfl).1).2.1 rfl⟩

/-- The retrieved singleton binding of an ABI index. -/
theorem mapGet_singleton (k : String) (v : ScriptABI) (f : String) (abi : ScriptABI)
    (h : mapGet [(k, v)] f = some abi) : abi = v := by
  unfold mapGet at h
  split at h
  · cases h; rfl
  · exact Option.noConfusion h

/-- The fetched ABI map of the remote-build scenario: one entry function
with declared parameters `signer, u64, u64`. -/
def c7Fetched : List (String × MoveFunction) :=
  [("0x1::m::f", ⟨"f", ["signer", "u64", "u64"], 0⟩)]

/-- C7: the remote build path filters `signer`/`&signer` out of the declared
parameter list before arity checking and coercion — every successful remote
build supplies exactly as many arguments as there are non-signer declared
parameters, and in the concrete scenario (declared `signer, u64, u64`, raw
arguments `[10, 20]`) the built TxV1 carries exactly the two coerced
u64 encodings. -/
theorem remote_signer_filtering :
    (∀ (sg : List Signer) parse ser fetched func tys args tr fn,
      remoteBuildAux sg parse ser fetched func tys args = .ok tr →
      fetchedGet fetched (normlize func) = some fn →
      args.length = (fn.params.filter fun p => p ≠ "signer" && p ≠ "&signer").length)
    ∧ ∀ sg : List Signer,
      remoteBuildAux sg parseTypeTagM serializeArgM c7Fetched "0x1::m::f" []
          [.num 10, .num 20]
        = .ok (.v1 ⟨sg, .entryFunction ⟨AccountAddress.fromHex "0x1", ⟨"m"⟩, ⟨"f"⟩⟩,
            [leBytes 8 10, leBytes 8 20], []⟩) := by
  constructor
  · intro sg parse ser fetched func tys args tr fn h hg
    unfold remoteBuildAux remoteGo at h
    split at h
    · split at h
      · cases h
      · rename_i funcAbi hget
        rw [hget] at hg
        cases hg
        split at h
        · cases h
        · rename_i tas hpa
          split at h
          · cases h
          · rename_i mid hmid
            split at h
            · cases h
            · rename_i m hnew
              split at h
              · rename_i tx htx
                obtain ⟨abi, hmg, hlen⟩ := buildCallAux_ok_lookup sg parse ser m
                  (normlize func) tys args tx htx
                simp only [TransactionBuilderABI.new, buildAbiMap, mapHas, mapGet,
                  mapSet, Option.isSome] at hnew
                cases hnew
                have habi := mapGet_singleton _ _ _ _ hmg
                subst habi
                have hplen : tas.length = (fn.params.filter
                    fun p => p ≠ "signer" && p ≠ "&signer").length :=
                  parseArgABIs_length parse _ 0 tas hpa
                rw [← hlen]
                exact hplen
              · cases h
    · cases h
  · intro sg
    rfl

/-- C7 (witness): the filter-arity relation evaluated on the concrete
scenario, via the successful concrete build. -/
theorem remote_signer_filtering_witness :
    ([RawArg.num 10, RawArg.num 20] : List RawArg).length
      = (["signer", "u64", "u64"].filter fun p => p ≠ "signer" && p ≠ "&signer").length :=
  remote_signer_filtering.1 [] parseTypeTagM serializeArgM c7Fetched "0x1::m::f" []
    [.num 10, .num 20] _ ⟨"f", ["signer", "u64", "u64"], 0⟩
    (remote_signer_filtering.2 []) rfl

/-- C8: the remote build path normalizes the caller-supplied function name
by collapsing the run of zeros after the `0x` marker, so two spellings of
the same address differing only in leading zeros normalize to the same
string and every remote build on them — the ABI lookup included — has the
identical outcome. -/
theorem remote_name_normalization (z1 z2 r : String)
    (h1 : ∀ c ∈ z1.data, c = '0') (h2 : ∀ c ∈ z2.data, c = '0') :
    normlize ("0x" ++ z1 ++ r) = normlize ("0x" ++ z2 ++ r)
    ∧ ∀ (sg : List Signer) parse ser fetched tys args,
      remoteBuildAux sg parse ser fetched ("0x" ++ z1 ++ r) tys args
        = remoteBuildAux sg parse ser fetched ("0x" ++ z2 ++ r) tys args := by
  have key : ∀ z : String, (∀ c ∈ z.data, c = '0') →
      normlize ("0x" ++ z ++ r) = ⟨'0' :: 'x' :: r.data.dropWhile (· = '0')⟩ := by
    intro z hz
    have hd : ("0x" ++ z ++ r).data = '0' :: 'x' :: (z.data ++ r.data) := by
      simp [String.data_append]
    unfold normlize
    rw [hd]
    show String.mk ('0' :: 'x' :: (z.data ++ r.data).dropWhile (· = '0'))
      = String.mk ('0' :: 'x' :: r.data.dropWhile (· = '0'))
    rw [dropWhile_append_all_zero z.data r.data hz]
  refine ⟨(key z1 h1).trans (key z2 h2).symm, ?_⟩
  intro sg parse ser fetched tys args
  unfold remoteBuildAux
  rw [key z1 h1, key z2 h2]

/-- C8 (witness): two spellings of the address `0x1` differing only in
leading zeros, with equal normalization and equal remote-build outcome. -/
theorem remote_name_normalization_witness :
    normlize ("0x" ++ "" ++ "1::m::f") = normlize ("0x" ++ "00" ++ "1::m::f")
    ∧ remoteBuildAux [] parseTypeTagM serializeArgM c7Fetched
        ("0x" ++ "" ++ "1::m::f") [] [.num 10, .num 20]
      = remoteBuildAux [] parseTypeTagM serializeArgM c7Fetched
        ("0x" ++ "00" ++ "1::m::f") [] [.num 10, .num 20] :=
  ⟨(remote_name_normalization "" "00" "1::m::f" (by decide) (by decide)).1,
   (remote_name_normalization "" "00" "1::m::f" (by decide) (by decide)).2
     [] parseTypeTagM serializeArgM c7Fetched [] [.num 10, .num 20]⟩

/-- C9: the entry-function Call for `module_address=0x1, module_name="coin",
function_name="transfer"` serializes to exactly `ULEB128(1)`, the fixed
32-byte address (31 zero bytes then `0x01`), the length-prefixed bytes of
`"coin"`, and the length-prefixed bytes of `"transfer"` — nothing else. -/
theorem entry_function_call_bytes :
    (AccountAddress.fromHex "0x1").address = List.replicate 31 0 ++ [1]
    ∧ Call.serialize (.entryFunction ⟨AccountAddress.fromHex "0x1", ⟨"coin"⟩, ⟨"transfer"⟩⟩)
      = [1] ++ (List.replicate 31 0 ++ [1]) ++ ([4] ++ [99, 111, 105, 110])
        ++ ([8] ++ [116, 114, 97, 110, 115, 102, 101, 114]) :=
  ⟨by decide, by decide⟩

/-- C10 (amended): a successful entry-function `buildCall` returns a Call
whose module address is parsed from the substring of the caller-supplied
`func` before the first `::` — not copied from the ABI entry — while the
module and function names come from the ABI entry; and `fromHex` pads
spellings into the fixed-width address value, so the two spellings `0x1` and
`0x01` parse to the same stored address. -/
theorem buildCall_address_from_func :
    (∀ (sg : List Signer) parse ser m func tys args tx fa,
      buildCallAux sg parse ser m func tys args = .ok tx →
      mapGet m func = some (.entryFunction fa) →
      tx.call = .entryFunction ⟨AccountAddress.fromHex (beforeCC func),
        fa.module_name.name, ⟨fa.name⟩⟩)
    ∧ AccountAddress.fromHex "0x1" = AccountAddress.fromHex "0x01" :=
  ⟨fun sg parse ser m func tys args tx fa h hg =>
    buildCallAux_entry_call sg parse ser m func tys args tx fa h hg,
   by decide⟩

/-- The entry-function ABI sample (`0x1::m::f`) and its index. -/
def entryABI : ScriptABI :=
  .entryFunction ⟨"f", ⟨AccountAddress.fromHex "0x1", ⟨"m"⟩⟩, "", [], []⟩

/-- The index holding only `entryABI` under its canonical key. -/
def entryMap : AbiMap :=
  [("0x1::m::f", entryABI)]

/-- C10 (counterexample): two distinct spellings of the address `0x1` do not
yield Calls differing in their stored address — the canonical spelling
succeeds with the padded address, the other spelling fails the lookup
entirely, and `fromHex` maps both spellings to the same value. -/
theorem buildCall_address_spellings_counterexample :
    TransactionBuilderABI.buildCall parseTypeTagM serializeArgM entryMap
        "0x1::m::f" [] []
      = .ok ⟨[], .entryFunction ⟨AccountAddress.fromHex "0x1", ⟨"m"⟩, ⟨"f"⟩⟩, [], []⟩
    ∧ TransactionBuilderABI.buildCall parseTypeTagM serializeArgM entryMap
        "0x01::m::f" [] []
      = .error (.cannotFindFunction "0x01::m::f")
    ∧ AccountAddress.fromHex "0x1" = AccountAddress.fromHex "0x01" :=
  ⟨rfl, rfl, by decide⟩

/-- C10 (witness): the call shape evaluated on a concrete successful
entry-function build. -/
theorem buildCall_address_from_func_witness :
    (⟨[], .entryFunction ⟨AccountAddress.fromHex "0x1", ⟨"m"⟩, ⟨"f"⟩⟩, [], []⟩ : TxV1).call
      = .entryFunction ⟨AccountAddress.fromHex (beforeCC "0x1::m::f"),
          (⟨"m"⟩ : Identifier), ⟨"f"⟩⟩ :=
  buildCall_address_from_func.1 [] parseTypeTagM serializeArgM entryMap
    "0x1::m::f" [] [] _ ⟨"f", ⟨AccountAddress.fromHex "0x1", ⟨"m"⟩⟩, "", [], []⟩
    rfl rfl

end TxSdk
